import Mathlib

/-!
Shallow embedding of the catchup subsystem (`src/catchup.c`) of the
pg_probackup / pg_arman backup utility, with proofs about its preflight
checks, destination reconciliation (the reaper loop), transfer ordering
and finalization policies.

Modelling conventions:
* Environment probes (`dir_is_empty`, `fio_check_postmaster`,
  `get_system_identifier`, `get_redo`, `fio_readlink`, ...) are modelled as
  fields of an environment record holding the value the probe would return.
* `elog(ERROR, ...)` non-local exits are modelled as `Except` errors.
* Every modification of the destination data directory (and the
  source-side backup-protocol calls) is modelled as an emitted action in a
  trace; system-call level failures (mkdir/symlink/sync failing at the OS
  level) are not modelled.
* Machine integers (LSNs, system identifiers, pids, versions) are `Nat`;
  none of the modelled comparisons can overflow. `InvalidXLogRecPtr` is 0.
-/

/-- Lexicographic comparison of character lists: the model of C
`strcmp(a, b) < 0` (UTF-8 byte order and codepoint order agree). -/
def chListLt : List Char → List Char → Bool
  | [], [] => false
  | [], _ :: _ => true
  | _ :: _, [] => false
  | a :: as, b :: bs => if a < b then true else if b < a then false else chListLt as bs

/-- strcmp-style strict order on paths. -/
def pathLt (a b : String) : Bool := chListLt a.data b.data

/-- Model of PostgreSQL `is_absolute_path` on POSIX: first byte is a
directory separator. -/
def isAbsolutePath (p : String) : Bool :=
  match p.data with
  | [] => false
  | c :: _ => c == '/'

/-- Model of `get_parent_directory`: strip the last path component
(everything from the last slash on); a path with no slash becomes empty. -/
def get_parent_directory (p : String) : String :=
  ⟨((p.data.reverse.dropWhile (fun c => c ≠ '/')).drop 1).reverse⟩

/-- ASCII lower-casing of one character, as C `tolower` does inside
`pg_strcasecmp`. -/
def toLowerCh (c : Char) : Char :=
  if 'A' ≤ c ∧ c ≤ 'Z' then Char.ofNat (c.toNat + 32) else c

/-- Model of `pg_strcasecmp(a, b) == 0`: ASCII case-insensitive equality. -/
def pg_strcasecmp_eq (a b : String) : Bool :=
  a.data.map toLowerCh == b.data.map toLowerCh

/-- Relative path of the control file (`XLOG_CONTROL_FILE`). -/
def XLOG_CONTROL_FILE : String := "global/pg_control"

/-- Name of the backup label file (`PG_BACKUP_LABEL_FILE`). -/
def PG_BACKUP_LABEL_FILE : String := "backup_label"

/-- Name of the relation-mapper file (`RELMAPPER_FILENAME`). -/
def RELMAPPER_FILENAME : String := "pg_filenode.map"

/-- Name of the tablespace directory (`PG_TBLSPC_DIR`). -/
def PG_TBLSPC_DIR : String := "pg_tblspc"

/-- The backup mode requested for the catchup (`BackupMode` in the source;
only the three modes reachable from the catchup command are modelled). -/
inductive BackupMode where
  | DIFF_DELTA
  | DIFF_PTRACK
  | FULL
deriving DecidableEq, Repr

/-- Database cluster state from the control file (`DBState` in
`src/include/catalog/pg_control.h`). -/
inductive DBState where
  | DB_STARTUP
  | DB_SHUTDOWNED
  | DB_SHUTDOWNED_IN_RECOVERY
  | DB_SHUTDOWNING
  | DB_IN_CRASH_RECOVERY
  | DB_IN_ARCHIVE_RECOVERY
  | DB_IN_PRODUCTION
deriving DecidableEq, Repr

/-- File kind, abstracting the `mode` bits tests `S_ISDIR` / `S_ISREG`. -/
inductive FileKind where
  | directory
  | regular
  | special
deriving DecidableEq, Repr

/-- One file entry of a data-directory listing (the fields of `pgFile` the
catchup code reads; `ext_dir_num` is the source's `external_dir_num`,
`name` is the basename component of `rel_path`). -/
structure pgFile where
  rel_path : String
  name : String
  ext_dir_num : Nat
  kind : FileKind
  size : Nat
  is_datafile : Bool
  is_cfs : Bool
deriving DecidableEq, Repr

/-- Redo parameters read from a control file by `get_redo` (the fields the
catchup code uses). -/
structure RedoParams where
  tli : Nat
  lsn : Nat
deriving DecidableEq, Repr

/-- One entry of a parsed timeline history: a timeline id and the LSN at
which the history switches away from it. -/
structure TimeLineHistoryEntry where
  tli : Nat
  switchpoint : Nat
deriving DecidableEq, Repr

/-- Non-fatal warnings emitted by the tablespace-mapping check. -/
inductive TbsWarning where
  | unmappedTablespaceRemote (path : String)
deriving DecidableEq, Repr

/-- The fatal errors (`elog(ERROR, ...)` sites) of the modelled catchup
code, one constructor per distinct message. -/
inductive CatchupError where
  | destEmptyForIncremental
  | destNotEmptyForFull
  | pidFileMangled
  | postmasterIsRunning (pid : Nat)
  | backupLabelInDest
  | destNotShutDownCleanly
  | sourceIdMismatch (connId fileId : Nat)
  | destIdMismatch (connId destId : Nat)
  | ptrackUnsupported
  | ptrackTooOld
  | ptrackDisabled
  | standbyCatchupNeedsNewServer
  | tablespaceNotInMapping (path : String)
  | tablespacePathNotAbsolute (path : String)
  | tablespaceDirNotEmpty (path : String)
  | cannotGetSourceHistory
  | destNotInSourceHistory
  | sourceBehindDest
  | ptrackLsnMismatch
  | startLsnLowerThanSync
  | controlFileNotFound
  | dataTransferFailed
  | walStreamingFailed
deriving DecidableEq, Repr

/-- The observable actions of one catchup run: source-side backup-protocol
calls and every modification of the destination data directory. -/
inductive CatchupAction where
  | startBackup
  | mkdirWalDir
  | startWalStreaming
  | mkdirDir (relPath : String)
  | createTablespaceDirAndSymlink (linkedPath relPath : String)
  | deleteFile (relPath : String)
  | copyFile (relPath : String)
  | copyControlFile (relPath : String)
  | createRestorePoint
  | stopBackupSend
  | stopBackupConsume
  | writeBackupLabel
  | setMinRecoveryPoint
  | syncFiles
deriving DecidableEq, Repr

/-- Insertion into a list sorted by the boolean relation `le`. -/
def isortInsert {α : Type} (le : α → α → Bool) (a : α) : List α → List α
  | [] => [a]
  | b :: bs => if le a b then a :: b :: bs else b :: isortInsert le a bs

/-- Insertion sort by the boolean relation `le`: the model of
`parray_qsort` (the C sort is unstable, but all lists we sort have
pairwise distinct keys, so stability is irrelevant). -/
def isort {α : Type} (le : α → α → Bool) : List α → List α
  | [] => []
  | a :: as => isortInsert le a (isort le as)

/-- Comparator `pgFileCompareRelPathWithExternal` as a total boolean
order: by `rel_path` (strcmp), then by `ext_dir_num`. -/
def fileKeyLe (a b : pgFile) : Bool :=
  pathLt a.rel_path b.rel_path ||
    (a.rel_path == b.rel_path && a.ext_dir_num ≤ b.ext_dir_num)

/-- Comparator `pgFileCompareRelPathWithExternalDesc`: the reverse of
`fileKeyLe`. -/
def fileKeyGe (a b : pgFile) : Bool := fileKeyLe b a

/-- Comparator `pgFileCompareSizeDesc`: descending by size. -/
def fileSizeGe (a b : pgFile) : Bool := b.size ≤ a.size

/-- Run a list of checks in order, stopping at the first failure: the
sequential `elog(ERROR, ...)`-style control flow of the preflight body. -/
def runChecks : List (Except CatchupError Unit) → Except CatchupError Unit
  | [] => .ok ()
  | .error e :: _ => .error e
  | .ok _ :: rest => runChecks rest

/-- The first failure among a list of checks, if any. -/
def firstError : List (Except CatchupError Unit) → Option CatchupError
  | [] => none
  | .error e :: _ => some e
  | .ok _ :: rest => firstError rest

/-- Destination-emptiness versus mode check (`catchup.c:119-131`). -/
def dest_emptiness_check (mode : BackupMode) (destIsEmpty : Bool) :
    Except CatchupError Unit :=
  if destIsEmpty then
    if mode = .DIFF_PTRACK ∨ mode = .DIFF_DELTA then .error .destEmptyForIncremental
    else .ok ()
  else
    if mode = .FULL then .error .destNotEmptyForFull
    else .ok ()

/-- Destination postmaster-liveness check (`catchup.c:133-150`); `pid` is
the value `fio_check_postmaster` returns: 0 for no postmaster, 1 for a
mangled pid file, and the live pid (> 1) otherwise. -/
def postmaster_check (mode : BackupMode) (pid : Nat) : Except CatchupError Unit :=
  if mode ≠ .FULL then
    if pid = 1 then .error .pidFileMangled
    else if pid > 1 then .error (.postmasterIsRunning pid)
    else .ok ()
  else .ok ()

/-- Stale backup-label check (`catchup.c:152-160`); `hasLabel` is whether
`fio_access` finds `backup_label` in the destination. -/
def backup_label_check (mode : BackupMode) (hasLabel : Bool) :
    Except CatchupError Unit :=
  if mode ≠ .FULL ∧ hasLabel then .error .backupLabelInDest else .ok ()

/-- Clean-shutdown check of the destination control file
(`catchup.c:162-171`). -/
def dbstate_check (mode : BackupMode) (state : DBState) : Except CatchupError Unit :=
  if mode ≠ .FULL ∧ state ≠ .DB_SHUTDOWNED ∧ state ≠ .DB_SHUTDOWNED_IN_RECOVERY then
    .error .destNotShutDownCleanly
  else .ok ()

/-- System-identifier match check (`catchup.c:173-191`): the id reported
by the source connection must equal the id in the source control file,
and (for incremental modes) the id in the destination control file. -/
def system_id_check (mode : BackupMode) (connId fileId destId : Nat) :
    Except CatchupError Unit :=
  if connId ≠ fileId then .error (.sourceIdMismatch connId fileId)
  else if mode ≠ .FULL ∧ connId ≠ destId then .error (.destIdMismatch connId destId)
  else .ok ()

/-- PTRACK prerequisites check (`catchup.c:193-203`). -/
def ptrack_support_check (mode : BackupMode) (versionNum : Nat) (enabled : Bool) :
    Except CatchupError Unit :=
  if mode = .DIFF_PTRACK then
    if versionNum = 0 then .error .ptrackUnsupported
    else if versionNum < 200 then .error .ptrackTooOld
    else if enabled = false then .error .ptrackDisabled
    else .ok ()
  else .ok ()

/-- From-replica versus exclusive-backup check (`catchup.c:205-206`). -/
def from_replica_check (fromReplica exclusiveBackup : Bool) :
    Except CatchupError Unit :=
  if fromReplica ∧ exclusiveBackup then .error .standbyCatchupNeedsNewServer
  else .ok ()

/-- Common tail of the per-tablespace check (`catchup.c:281-288`): the
resolved path must be absolute, and in FULL mode the resolved target
directory must be empty. -/
def check_tablespace_target (mode : BackupMode) (dirEmpty : String → Bool)
    (linkedPath : String) (warns : List TbsWarning) :
    Except CatchupError (List TbsWarning) :=
  if isAbsolutePath linkedPath = false then .error (.tablespacePathNotAbsolute linkedPath)
  else if mode = .FULL ∧ dirEmpty linkedPath = false then
    .error (.tablespaceDirNotEmpty linkedPath)
  else .ok warns

/-- One iteration of the tablespace-mapping loop (`catchup.c:262-289`):
a tablespace whose mapping lookup returns the path itself is unmapped —
fatal for a local source, a warning for a remote one. -/
def check_one_tablespace (remote : Bool) (mode : BackupMode)
    (mapping : String → String) (dirEmpty : String → Bool)
    (tablespacePath : String) : Except CatchupError (List TbsWarning) :=
  if tablespacePath = mapping tablespacePath then
    if remote = false then .error (.tablespaceNotInMapping tablespacePath)
    else check_tablespace_target mode dirEmpty (mapping tablespacePath)
      [.unmappedTablespaceRemote tablespacePath]
  else check_tablespace_target mode dirEmpty (mapping tablespacePath) []

/-- The tablespace-mapping completeness check
(`catchup_check_tablespaces_existance_in_tbsmapping`,
`catchup.c:246-291`), folded over the tablespace paths the source
reports; warnings accumulate, the first fatal error aborts. -/
def catchup_check_tablespaces_existance_in_tbsmapping (remote : Bool)
    (mode : BackupMode) (mapping : String → String) (dirEmpty : String → Bool) :
    List String → Except CatchupError (List TbsWarning)
  | [] => .ok []
  | p :: ps =>
    match check_one_tablespace remote mode mapping dirEmpty p with
    | .error e => .error e
    | .ok ws =>
      match catchup_check_tablespaces_existance_in_tbsmapping remote mode mapping
          dirEmpty ps with
      | .error e => .error e
      | .ok ws2 => .ok (ws ++ ws2)

/-- Modelled from the spec: `satisfy_timeline` and
`parse_tli_history_buffer` are outside `src/`; per the spec's
TimelineHistory invariant, destination redo `(tli, lsn)` satisfies the
source history iff the destination tli appears in the history at a
switchpoint LSN ≥ the destination lsn, or equals the source's current
tli. -/
def satisfy_timeline (timelines : List TimeLineHistoryEntry)
    (sourceCurrentTli tli lsn : Nat) : Bool :=
  (tli == sourceCurrentTli) ||
    timelines.any (fun e => e.tli == tli && lsn ≤ e.switchpoint)

/-- Timeline validation (`catchup.c:211-238`): skipped in FULL mode; when
the source's current timeline is 1 no history is consulted and the
destination must also be on timeline 1; otherwise the history must have
been obtained (`history = some _`) and the destination redo point must
satisfy it. -/
def timeline_check (mode : BackupMode) (currentTli : Nat) (destRedo : RedoParams)
    (history : Option (List TimeLineHistoryEntry)) : Except CatchupError Unit :=
  if mode ≠ .FULL then
    if currentTli ≠ 1 then
      match history with
      | none => .error .cannotGetSourceHistory
      | some tls =>
        if satisfy_timeline tls currentTli destRedo.tli destRedo.lsn = false then
          .error .destNotInSourceHistory
        else .ok ()
    else
      if destRedo.tli ≠ 1 then .error .sourceBehindDest else .ok ()
  else .ok ()

/-- Everything `catchup_preflight_checks` reads: the requested mode and
the values the environment probes would return. -/
structure PreflightEnv where
  backup_mode : BackupMode
  /-- `dir_is_empty(dest_pgdata, FIO_LOCAL_HOST)` -/
  dest_pgdata_is_empty : Bool
  /-- `fio_check_postmaster(dest_pgdata, FIO_LOCAL_HOST)` -/
  dest_postmaster_pid : Nat
  /-- `fio_access(<dest>/backup_label, F_OK, FIO_LOCAL_HOST) == 0` -/
  dest_has_backup_label : Bool
  /-- `get_system_dbstate(dest_pgdata, FIO_LOCAL_HOST)` -/
  dest_dbstate : DBState
  /-- `get_remote_system_identifier(source_conn)` -/
  source_conn_id : Nat
  /-- `get_system_identifier(source_pgdata, FIO_DB_HOST)` -/
  source_file_id : Nat
  /-- `get_system_identifier(dest_pgdata, FIO_LOCAL_HOST)` -/
  dest_file_id : Nat
  /-- `source_node_info->ptrack_version_num` -/
  ptrack_version_num : Nat
  /-- `source_node_info->is_ptrack_enabled` -/
  is_ptrack_enabled : Bool
  /-- `current.from_replica` -/
  from_replica : Bool
  /-- the global `exclusive_backup` -/
  exclusive_backup : Bool
  /-- `fio_is_remote(FIO_DB_HOST)` -/
  source_is_remote : Bool
  /-- canonicalized `pg_tablespace_location` values the source reports -/
  tablespaces : List String
  /-- `get_tablespace_mapping` (returns its argument when unmapped) -/
  tablespace_mapping : String → String
  /-- `dir_is_empty` for mapped tablespace target directories -/
  tbs_dir_is_empty : String → Bool
  /-- `current.tli` of the source -/
  current_tli : Nat
  /-- `get_redo(dest_pgdata, FIO_LOCAL_HOST)` -/
  dest_redo : RedoParams
  /-- result of `catchup_get_tli_history` (`none` when it fails) -/
  source_history : Option (List TimeLineHistoryEntry)

/-- The preflight checks in their source order (`catchup.c:94-239`). -/
def preflight_check_list (env : PreflightEnv) : List (Except CatchupError Unit) :=
  [ dest_emptiness_check env.backup_mode env.dest_pgdata_is_empty,
    postmaster_check env.backup_mode env.dest_postmaster_pid,
    backup_label_check env.backup_mode env.dest_has_backup_label,
    dbstate_check env.backup_mode env.dest_dbstate,
    system_id_check env.backup_mode env.source_conn_id env.source_file_id
      env.dest_file_id,
    ptrack_support_check env.backup_mode env.ptrack_version_num
      env.is_ptrack_enabled,
    from_replica_check env.from_replica env.exclusive_backup,
    (catchup_check_tablespaces_existance_in_tbsmapping env.source_is_remote
      env.backup_mode env.tablespace_mapping env.tbs_dir_is_empty
      env.tablespaces).map (fun _ => ()),
    timeline_check env.backup_mode env.current_tli env.dest_redo
      env.source_history ]

/-- `catchup_preflight_checks` (`catchup.c:94-239`): the checks run in
source order; the first failure aborts. The function only reads the two
directories, it performs no modification. -/
def catchup_preflight_checks (env : PreflightEnv) : Except CatchupError Unit :=
  runChecks (preflight_check_list env)

/-- A trace-emitting, failing computation: the list of actions performed
so far paired with either a result or the fatal error that aborted the
run (actions already performed stay performed). -/
def TraceM (α : Type) : Type := List CatchupAction × Except CatchupError α

/-- Return without acting. -/
def pureT {α : Type} (a : α) : TraceM α := ([], .ok a)

/-- Sequencing: on error the continuation never runs. -/
def bindT {α β : Type} (x : TraceM α) (f : α → TraceM β) : TraceM β :=
  match x with
  | (as, .error e) => (as, .error e)
  | (as, .ok a) => (as ++ (f a).1, (f a).2)

/-- Perform one action. -/
def emit (a : CatchupAction) : TraceM Unit := ([a], .ok ())

/-- Abort with a fatal error (`elog(ERROR, ...)`). -/
def failT {α : Type} (e : CatchupError) : TraceM α := ([], .error e)

/-- Lift a pure check into the trace monad. -/
def liftE {α : Type} : Except CatchupError α → TraceM α
  | .ok a => ([], .ok a)
  | .error e => ([], .error e)

/-- Everything `do_catchup` reads beyond the preflight environment. -/
structure CatchupEnv where
  pre : PreflightEnv
  /-- start LSN returned by `pg_start_backup` into `current.start_lsn` -/
  start_lsn : Nat
  /-- source listing (`fio_list_dir` / `dir_list_file` on the source) -/
  source_filelist : List pgFile
  /-- destination listing (`dir_list_file` on the destination) -/
  dest_filelist : List pgFile
  /-- `get_last_ptrack_lsn(source_conn, ...)` -/
  ptrack_lsn : Nat
  /-- `fio_readlink` content for a `pg_tblspc` entry, keyed by rel_path -/
  symlink_target : String → String
  /-- whether the copier succeeds on a given file (worker outcome) -/
  copy_ok : String → Bool
  /-- `source_node_info.server_version` -/
  server_version : Nat
  /-- `source_node_info.is_superuser` -/
  is_superuser : Bool
  /-- `wait_WAL_streaming_end` succeeds -/
  wal_stream_ok : Bool
  /-- the `--no-sync` flag is absent -/
  sync_dest_files : Bool

/-- Key of the control-file entry searched by `parray_bsearch` with
`pgFileCompareRelPathWithExternal` (`catchup.c:806-815`). -/
def isControlEntry (f : pgFile) : Bool :=
  f.rel_path == XLOG_CONTROL_FILE && f.ext_dir_num == 0

/-- Locate and remove the control-file entry (`catchup.c:802-817`): the
binary search on the ascending-sorted list finds an entry with the
control-file key (modelled as first match), `parray_remove` removes that
one entry; `none` models the fatal "not found" error. -/
def remove_control_file (l : List pgFile) : Option (pgFile × List pgFile) :=
  match l.find? isControlEntry with
  | none => none
  | some c => some (c, l.eraseP isControlEntry)

/-- Membership test that models `parray_bsearch(source_filelist, file,
pgFileCompareRelPathWithExternal) != NULL` on the ascending-sorted source
list (`catchup.c:834`). -/
def source_has_entry (source : List pgFile) (f : pgFile) : Bool :=
  source.any (fun s => s.rel_path == f.rel_path && s.ext_dir_num == f.ext_dir_num)

/-- `pg_strcasecmp(file->name, RELMAPPER_FILENAME) == 0` (`catchup.c:839`). -/
def is_relmapper_file (f : pgFile) : Bool :=
  pg_strcasecmp_eq f.name RELMAPPER_FILENAME

/-- Redundancy of a destination entry (`catchup.c:829-840`): redundant
iff absent from the source list, except that the relation-mapper file is
always redundant. -/
def is_redundant (source : List pgFile) (f : pgFile) : Bool :=
  !(source_has_entry source f) || is_relmapper_file f

/-- The reaper loop body over an already-sorted destination list
(`catchup.c:827-862`): a redundant entry is deleted from disk and removed
from the in-memory list (the `parray_remove(...); i--;` idiom), any other
entry is kept. Returns the deletion actions in iteration order and the
surviving list. -/
def reaper_loop (source : List pgFile) : List pgFile → List CatchupAction × List pgFile
  | [] => ([], [])
  | f :: fs =>
    let rest := reaper_loop source fs
    if is_redundant source f then (.deleteFile f.rel_path :: rest.1, rest.2)
    else (rest.1, f :: rest.2)

/-- Removal of redundant destination files (`catchup.c:823-863`): the
destination list is sorted descending by `pgFileCompareRelPathWithExternalDesc`
(children before parents) and swept by `reaper_loop`. -/
def catchup_reaper (source dest : List pgFile) : List CatchupAction × List pgFile :=
  reaper_loop source (isort fileKeyGe dest)

/-- Directory and tablespace-symlink materialization loop
(`catchup.c:734-800`): for each directory entry, an entry whose parent
directory is `pg_tblspc` is a tablespace link — its source symlink target
is resolved through the tablespace mapping, a non-absolute result is
fatal, otherwise the target directory and the symlink are created; any
other directory is created in the destination. -/
def catchup_create_dirs (mapping : String → String)
    (symlinkTarget : String → String) : List pgFile → TraceM Unit
  | [] => pureT ()
  | f :: fs =>
    if f.kind ≠ .directory then catchup_create_dirs mapping symlinkTarget fs
    else if get_parent_directory f.rel_path ≠ PG_TBLSPC_DIR then
      bindT (emit (.mkdirDir f.rel_path)) fun _ =>
        catchup_create_dirs mapping symlinkTarget fs
    else
      if isAbsolutePath (mapping (symlinkTarget f.rel_path)) = false then
        failT (.tablespacePathNotAbsolute (mapping (symlinkTarget f.rel_path)))
      else
        bindT (emit (.createTablespaceDirAndSymlink
            (mapping (symlinkTarget f.rel_path)) f.rel_path)) fun _ =>
          catchup_create_dirs mapping symlinkTarget fs

/-- Sequential model of the worker pool (`catchup_thread_runner` +
`catchup_multithreaded_copy`, `catchup.c:373-524`): directories are
skipped, every other entry is claimed exactly once and handed to a
copier; the pool's return value is the conjunction of all workers'
`completed` flags, i.e. whether every copy succeeded. (The per-entry
destination-list lookup feeding `exists_in_prev` has no observable
effect modelled here.) -/
def catchup_multithreaded_copy (copyOk : String → Bool) :
    List pgFile → TraceM Bool
  | [] => pureT true
  | f :: fs =>
    if f.kind = .directory then catchup_multithreaded_copy copyOk fs
    else
      bindT (emit (.copyFile f.rel_path)) fun _ =>
        bindT (catchup_multithreaded_copy copyOk fs) fun rest =>
          pureT (copyOk f.rel_path && rest)

/-- The value `catchup_multithreaded_copy` returns: all non-directory
entries copied successfully. -/
def pool_all_ok (copyOk : String → Bool) (l : List pgFile) : Bool :=
  l.all (fun f => f.kind == FileKind.directory || copyOk f.rel_path)

/-- End-of-backup block (`catchup.c:904-1004`): the restore point is
created unless the source is a replica, or the server is older than 9.6
and the role is not superuser; then stop-backup is sent and consumed, the
backup label is written, WAL streaming must have ended well, the
min-recovery point is patched for a non-exclusive replica source, and the
destination is fsynced unless `--no-sync` was given. -/
def catchup_end_of_backup (env : CatchupEnv) : TraceM Unit :=
  bindT (if env.pre.from_replica = false ∧
            ¬ (env.server_version < 90600 ∧ env.is_superuser = false) then
           emit .createRestorePoint
         else pureT ()) fun _ =>
  bindT (emit .stopBackupSend) fun _ =>
  bindT (emit .stopBackupConsume) fun _ =>
  bindT (emit .writeBackupLabel) fun _ =>
  bindT (if env.wal_stream_ok = false then failT .walStreamingFailed else pureT ()) fun _ =>
  bindT (if env.pre.from_replica = true ∧ env.pre.exclusive_backup = false then
           emit .setMinRecoveryPoint
         else pureT ()) fun _ =>
  (if env.sync_dest_files then emit .syncFiles else pureT ())

/-- Transfer phase and finish (`catchup.c:819-1020`), dispatching on the
result of the control-file removal: the reaper (incremental only), the
parallel copy over the size-sorted remaining list, the held-back
control-file copy gated on pool success, the fatal error when some worker
failed, and the end-of-backup block. -/
def catchup_transfer_and_finish (env : CatchupEnv) :
    Option (pgFile × List pgFile) → TraceM Nat
  | none => failT .controlFileNotFound
  | some (ctrl, rest) =>
    bindT (if env.pre.backup_mode ≠ .FULL then
             ((catchup_reaper rest env.dest_filelist).1, .ok ())
           else pureT ()) fun _ =>
    bindT (catchup_multithreaded_copy env.copy_ok (isort fileSizeGe rest)) fun isok =>
    bindT (if isok then emit (.copyControlFile ctrl.rel_path) else pureT ()) fun _ =>
    bindT (if isok then pureT () else failT .dataTransferFailed) fun _ =>
    bindT (catchup_end_of_backup env) fun _ =>
    pureT 0

/-- Entry point `do_catchup` (`catchup.c:570-1020`), as the sequence of
its phases: preflight, start-backup, the ptrack-LSN and start-LSN guards,
WAL-dir creation and streaming start, source listing (ascending sort),
directory materialization, control-file removal, the reaper (incremental
only), the parallel copy (source list re-sorted descending by size), the
held-back control-file copy gated on pool success, and the end-of-backup
block. -/
def do_catchup (env : CatchupEnv) : List CatchupAction × Except CatchupError Nat :=
  bindT (liftE (catchup_preflight_checks env.pre)) fun _ =>
  bindT (emit .startBackup) fun _ =>
  bindT (if env.pre.backup_mode = .DIFF_PTRACK ∧
            (env.ptrack_lsn > env.pre.dest_redo.lsn ∨ env.ptrack_lsn = 0) then
           failT .ptrackLsnMismatch
         else pureT ()) fun _ =>
  bindT (if env.pre.backup_mode ≠ .FULL ∧ env.pre.dest_redo.lsn > env.start_lsn then
           failT .startLsnLowerThanSync
         else pureT ()) fun _ =>
  bindT (emit .mkdirWalDir) fun _ =>
  bindT (emit .startWalStreaming) fun _ =>
  bindT (catchup_create_dirs env.pre.tablespace_mapping env.symlink_target
          (isort fileKeyLe env.source_filelist)) fun _ =>
  catchup_transfer_and_finish env
    (remove_control_file (isort fileKeyLe env.source_filelist))

/-! ### Concrete environments used by witnesses and counterexamples -/

/-- A directory entry of the baseline source tree. -/
def fBaseDir : pgFile :=
  { rel_path := "base", name := "base", ext_dir_num := 0, kind := .directory,
    size := 4096, is_datafile := false, is_cfs := false }

/-- A regular datafile entry of the baseline source tree. -/
def fBase1Dir : pgFile :=
  { rel_path := "base/1", name := "1", ext_dir_num := 0, kind := .directory,
    size := 4096, is_datafile := false, is_cfs := false }

/-- A regular datafile entry of the baseline source tree. -/
def fRel100 : pgFile :=
  { rel_path := "base/1/100", name := "100", ext_dir_num := 0, kind := .regular,
    size := 16384, is_datafile := true, is_cfs := false }

/-- The `global` directory entry of the baseline source tree. -/
def fGlobalDir : pgFile :=
  { rel_path := "global", name := "global", ext_dir_num := 0, kind := .directory,
    size := 4096, is_datafile := false, is_cfs := false }

/-- The control-file entry of the baseline source tree. -/
def fControl : pgFile :=
  { rel_path := "global/pg_control", name := "pg_control", ext_dir_num := 0,
    kind := .regular, size := 8192, is_datafile := false, is_cfs := false }

/-- The relation-mapper file of database 1, present only in the
destination in some scenarios. -/
def fRelmap : pgFile :=
  { rel_path := "base/1/pg_filenode.map", name := "pg_filenode.map",
    ext_dir_num := 0, kind := .regular, size := 512, is_datafile := false,
    is_cfs := false }

/-- A destination-only file (dropped on the source). -/
def fDropped : pgFile :=
  { rel_path := "base/1/99", name := "99", ext_dir_num := 0, kind := .regular,
    size := 8192, is_datafile := true, is_cfs := false }

/-- A preflight environment on which every check passes in FULL mode. -/
def okFullPre : PreflightEnv :=
  { backup_mode := .FULL, dest_pgdata_is_empty := true, dest_postmaster_pid := 0,
    dest_has_backup_label := false, dest_dbstate := .DB_IN_PRODUCTION,
    source_conn_id := 42, source_file_id := 42, dest_file_id := 42,
    ptrack_version_num := 0, is_ptrack_enabled := false, from_replica := false,
    exclusive_backup := false, source_is_remote := false, tablespaces := [],
    tablespace_mapping := fun s => s, tbs_dir_is_empty := fun _ => true,
    current_tli := 1, dest_redo := { tli := 0, lsn := 0 },
    source_history := none }

/-- A preflight environment on which every check passes in DELTA mode. -/
def okDeltaPre : PreflightEnv :=
  { okFullPre with
      backup_mode := .DIFF_DELTA,
      dest_pgdata_is_empty := false,
      dest_dbstate := .DB_SHUTDOWNED,
      current_tli := 1,
      dest_redo := { tli := 1, lsn := 50 } }

/-- Wrap a preflight environment into a full catchup environment over the
baseline source tree, with every oracle succeeding. -/
def baseCatchupEnv (p : PreflightEnv) : CatchupEnv :=
  { pre := p, start_lsn := 100,
    source_filelist := [fBaseDir, fBase1Dir, fRel100, fGlobalDir, fControl],
    dest_filelist := [], ptrack_lsn := 0, symlink_target := fun _ => "",
    copy_ok := fun _ => true, server_version := 150000, is_superuser := true,
    wal_stream_ok := true, sync_dest_files := true }

/-- Catchup environment whose preflight fails on the first check. -/
def c2wEnv : CatchupEnv :=
  baseCatchupEnv { okFullPre with dest_pgdata_is_empty := false }

/-- FULL-mode catchup environment with a mangled destination pid file:
the destination is empty, so the pid-file probe reports status 1. -/
def c7cexEnv : CatchupEnv :=
  baseCatchupEnv { okFullPre with dest_postmaster_pid := 1 }

/-- DELTA-mode preflight environment with a mangled destination pid file. -/
def c7wPre : PreflightEnv := { okDeltaPre with dest_postmaster_pid := 1 }

/-- A preflight environment on which every check passes in PTRACK mode. -/
def okPtrackPre : PreflightEnv :=
  { okDeltaPre with
      backup_mode := .DIFF_PTRACK,
      ptrack_version_num := 220,
      is_ptrack_enabled := true }

/-- DELTA-mode catchup environment whose destination redo LSN (50) is
ahead of the start LSN (40). -/
def c9wEnv : CatchupEnv := { baseCatchupEnv okDeltaPre with start_lsn := 40 }

/-- PTRACK-mode catchup environment whose ptrack-control LSN is invalid
(zero). -/
def c10wEnv : CatchupEnv := baseCatchupEnv okPtrackPre

/-- A tablespace location reported by the source. -/
def TS_SRC : String := "/srv/ts1"

/-- The mapped destination of `TS_SRC`. -/
def TS_DST : String := "/srv/ts1b"

/-- DELTA-mode preflight environment with one mapped tablespace. -/
def c5wEnv : PreflightEnv :=
  { okDeltaPre with
      tablespaces := [TS_SRC],
      tablespace_mapping := fun s => if s = TS_SRC then TS_DST else s }

/-- FULL-mode catchup environment over the baseline tree with every
oracle succeeding. -/
def cFullEnv : CatchupEnv := baseCatchupEnv okFullPre

/-- The baseline source list sorted ascending with the control file
removed. -/
def cFullRest : List pgFile := [fBaseDir, fBase1Dir, fRel100, fGlobalDir]

/-- Catchup environment showing that a restore point is created for a
non-superuser role on a modern (non-exclusive-capable) server. -/
def c8cexEnv : CatchupEnv := { cFullEnv with is_superuser := false }

/-- Source list (control file already removed) used by the reaper
witness. -/
def c4wSource : List pgFile := [fBaseDir, fBase1Dir, fRel100, fGlobalDir]

/-- Destination list used by the reaper witness: it contains a dropped
relation and a relation-mapper file besides files still in the source. -/
def c4wDest : List pgFile := [fBase1Dir, fRel100, fDropped, fRelmap]

/-! ### Lemmas about the trace monad -/

theorem bindT_of_ok {α β : Type} {x : TraceM α} {a : α} (f : α → TraceM β)
    (h : x.2 = Except.ok a) : bindT x f = (x.1 ++ (f a).1, (f a).2) := by
  obtain ⟨as, r⟩ := x
  simp only at h
  subst h
  rfl

theorem bindT_of_error {α β : Type} {x : TraceM α} {e : CatchupError}
    (f : α → TraceM β) (h : x.2 = Except.error e) : bindT x f = (x.1, Except.error e) := by
  obtain ⟨as, r⟩ := x
  simp only at h
  subst h
  rfl

theorem bindT_pureT {α β : Type} (a : α) (f : α → TraceM β) :
    bindT (pureT a) f = f a := rfl

theorem bindT_emit {β : Type} (a : CatchupAction) (f : Unit → TraceM β) :
    bindT (emit a) f = (a :: (f ()).1, (f ()).2) := rfl

theorem bindT_failT {α β : Type} (e : CatchupError) (f : α → TraceM β) :
    bindT (failT e) f = ([], Except.error e) := rfl

theorem liftE_okv {α : Type} (a : α) :
    liftE (Except.ok a : Except CatchupError α) = pureT a := rfl

theorem liftE_errorv {α : Type} (e : CatchupError) :
    liftE (Except.error e : Except CatchupError α) = failT e := rfl

/-! ### Lemmas about sequential check running -/

theorem runChecks_of_firstError {l : List (Except CatchupError Unit)}
    {e : CatchupError} (h : firstError l = some e) : runChecks l = Except.error e := by
  induction l with
  | nil => cases h
  | cons c rest ih =>
    cases c with
    | error e2 =>
      injection h with h2
      subst h2
      rfl
    | ok u => exact ih h

theorem runChecks_append (xs ys : List (Except CatchupError Unit)) :
    runChecks (xs ++ ys) =
      (match runChecks xs with
       | .error e => .error e
       | .ok _ => runChecks ys) := by
  induction xs with
  | nil => rfl
  | cons c rest ih =>
    cases c with
    | error e => rfl
    | ok u => simpa using ih

/-- A preflight failure aborts `do_catchup` before it performs any
action. -/
theorem do_catchup_of_preflight_error (env : CatchupEnv) (e : CatchupError)
    (h : catchup_preflight_checks env.pre = Except.error e) :
    do_catchup env = ([], Except.error e) := by
  unfold do_catchup
  rw [h]
  rfl

/-! ### Claim theorems -/

/-- C1: the destination-emptiness preflight check fails exactly when the
mode disagrees with the destination's emptiness (FULL with a non-empty
destination, or DELTA/PTRACK with an empty one), and any such failure
aborts the whole catchup with that error before any action. -/
theorem catchup_c1 (env : PreflightEnv) :
    ((dest_emptiness_check env.backup_mode env.dest_pgdata_is_empty).isOk = false ↔
      (env.backup_mode = .FULL ∧ env.dest_pgdata_is_empty = false) ∨
        ((env.backup_mode = .DIFF_DELTA ∨ env.backup_mode = .DIFF_PTRACK) ∧
          env.dest_pgdata_is_empty = true)) ∧
    (∀ e, dest_emptiness_check env.backup_mode env.dest_pgdata_is_empty =
        Except.error e →
      ∀ ce : CatchupEnv, ce.pre = env → do_catchup ce = ([], Except.error e)) := by
  constructor
  · cases env.backup_mode <;> cases h : env.dest_pgdata_is_empty <;>
      simp [dest_emptiness_check, Except.isOk, Except.toBool, h]
  · intro e he ce hc
    apply do_catchup_of_preflight_error
    rw [hc]
    unfold catchup_preflight_checks preflight_check_list
    rw [he]
    rfl

theorem catchup_c1_witness :
    dest_emptiness_check c2wEnv.pre.backup_mode c2wEnv.pre.dest_pgdata_is_empty =
        Except.error CatchupError.destNotEmptyForFull ∧
    do_catchup c2wEnv = ([], Except.error CatchupError.destNotEmptyForFull) :=
  ⟨rfl, (catchup_c1 c2wEnv.pre).2 CatchupError.destNotEmptyForFull rfl c2wEnv rfl⟩

/-- C2: if any preflight check fails, the run aborts with the first
failing check's error and no action on the destination has been
performed (the action trace is empty). -/
theorem catchup_c2 (env : CatchupEnv) (e : CatchupError)
    (h : firstError (preflight_check_list env.pre) = some e) :
    do_catchup env = ([], Except.error e) :=
  do_catchup_of_preflight_error env e (runChecks_of_firstError h)

theorem catchup_c2_witness :
    firstError (preflight_check_list c2wEnv.pre) =
        some CatchupError.destNotEmptyForFull ∧
    do_catchup c2wEnv = ([], Except.error CatchupError.destNotEmptyForFull) :=
  ⟨rfl, catchup_c2 c2wEnv CatchupError.destNotEmptyForFull rfl⟩

/-- C7 counterexample: the claim says the destination pid file is checked
on every catchup invocation, but in FULL mode the check is skipped: a run
whose destination pid-file probe reports "mangled" (status 1) passes
preflight and completes successfully instead of failing. -/
theorem catchup_c7_counterexample :
    c7cexEnv.pre.dest_postmaster_pid = 1 ∧
    c7cexEnv.pre.backup_mode = BackupMode.FULL ∧
    catchup_preflight_checks c7cexEnv.pre = Except.ok () ∧
    (do_catchup c7cexEnv).2 = Except.ok 0 :=
  ⟨rfl, rfl, rfl, rfl⟩

/-- C7 amended: in DELTA and PTRACK modes (mode ≠ FULL) the destination's
postmaster.pid probe is consulted: a mangled pid file fails preflight
with the distinct mangled-pid-file error and a live postmaster fails
preflight with the postmaster-running error (given that the preceding
emptiness check passed); in FULL mode the postmaster check is skipped. -/
theorem catchup_c7_amended (env : PreflightEnv)
    (h1 : dest_emptiness_check env.backup_mode env.dest_pgdata_is_empty =
      Except.ok ()) :
    (env.backup_mode ≠ .FULL → env.dest_postmaster_pid = 1 →
        catchup_preflight_checks env = Except.error CatchupError.pidFileMangled) ∧
    (env.backup_mode ≠ .FULL → env.dest_postmaster_pid > 1 →
        catchup_preflight_checks env =
          Except.error (CatchupError.postmasterIsRunning env.dest_postmaster_pid)) ∧
    (env.backup_mode = .FULL →
        postmaster_check env.backup_mode env.dest_postmaster_pid = Except.ok ()) := by
  refine ⟨?_, ?_, ?_⟩
  · intro hm hp
    unfold catchup_preflight_checks preflight_check_list
    rw [h1]
    have h2 : postmaster_check env.backup_mode env.dest_postmaster_pid =
        Except.error CatchupError.pidFileMangled := by
      unfold postmaster_check
      rw [if_pos hm, if_pos hp]
    rw [h2]
    rfl
  · intro hm hp
    unfold catchup_preflight_checks preflight_check_list
    rw [h1]
    have h2 : postmaster_check env.backup_mode env.dest_postmaster_pid =
        Except.error (CatchupError.postmasterIsRunning env.dest_postmaster_pid) := by
      unfold postmaster_check
      rw [if_pos hm, if_neg (by omega : ¬ env.dest_postmaster_pid = 1), if_pos hp]
    rw [h2]
    rfl
  · intro hm
    unfold postmaster_check
    rw [if_neg (fun hn => hn hm)]

theorem catchup_c7_amended_witness :
    dest_emptiness_check c7wPre.backup_mode c7wPre.dest_pgdata_is_empty =
        Except.ok () ∧
    c7wPre.backup_mode ≠ BackupMode.FULL ∧
    c7wPre.dest_postmaster_pid = 1 ∧
    catchup_preflight_checks c7wPre = Except.error CatchupError.pidFileMangled :=
  ⟨rfl, by decide, rfl, (catchup_c7_amended c7wPre rfl).1 (by decide) rfl⟩

/-- C9: in DELTA and PTRACK modes, once start-backup has returned the
start LSN, a destination redo (sync) LSN strictly greater than the start
LSN aborts the run with a fatal error, before any file content has been
transferred (the only action so far is the start-backup call itself). -/
theorem catchup_c9 (env : CatchupEnv)
    (hpre : catchup_preflight_checks env.pre = Except.ok ())
    (hpt : ¬ (env.pre.backup_mode = .DIFF_PTRACK ∧
        (env.ptrack_lsn > env.pre.dest_redo.lsn ∨ env.ptrack_lsn = 0)))
    (hmode : env.pre.backup_mode ≠ .FULL)
    (hlsn : env.pre.dest_redo.lsn > env.start_lsn) :
    do_catchup env = ([CatchupAction.startBackup],
        Except.error CatchupError.startLsnLowerThanSync) ∧
    ∀ p, CatchupAction.copyFile p ∉ (do_catchup env).1 ∧
        CatchupAction.copyControlFile p ∉ (do_catchup env).1 := by
  have hmain : do_catchup env = ([CatchupAction.startBackup],
      Except.error CatchupError.startLsnLowerThanSync) := by
    unfold do_catchup
    rw [hpre, liftE_okv, bindT_pureT, bindT_emit, if_neg hpt, bindT_pureT,
      if_pos ⟨hmode, hlsn⟩, bindT_failT]
  refine ⟨hmain, fun p => ?_⟩
  rw [hmain]
  constructor <;> simp

theorem catchup_c9_witness :
    catchup_preflight_checks c9wEnv.pre = Except.ok () ∧
    c9wEnv.pre.backup_mode ≠ BackupMode.FULL ∧
    c9wEnv.pre.dest_redo.lsn > c9wEnv.start_lsn ∧
    do_catchup c9wEnv = ([CatchupAction.startBackup],
        Except.error CatchupError.startLsnLowerThanSync) :=
  ⟨rfl, by decide, by decide,
    (catchup_c9 c9wEnv rfl (by decide) (by decide) (by decide)).1⟩

/-- C10: in PTRACK mode, once start-backup has run, a ptrack-control LSN
that is invalid (zero) or strictly greater than the destination's redo
LSN aborts the run with a fatal error, before any file content has been
transferred (the only action so far is the start-backup call itself). -/
theorem catchup_c10 (env : CatchupEnv)
    (hpre : catchup_preflight_checks env.pre = Except.ok ())
    (hmode : env.pre.backup_mode = .DIFF_PTRACK)
    (hbad : env.ptrack_lsn = 0 ∨ env.ptrack_lsn > env.pre.dest_redo.lsn) :
    do_catchup env = ([CatchupAction.startBackup],
        Except.error CatchupError.ptrackLsnMismatch) ∧
    ∀ p, CatchupAction.copyFile p ∉ (do_catchup env).1 ∧
        CatchupAction.copyControlFile p ∉ (do_catchup env).1 := by
  have hmain : do_catchup env = ([CatchupAction.startBackup],
      Except.error CatchupError.ptrackLsnMismatch) := by
    unfold do_catchup
    rw [hpre, liftE_okv, bindT_pureT, bindT_emit,
      if_pos ⟨hmode, hbad.symm.imp id (fun h => h)⟩, bindT_failT]
  refine ⟨hmain, fun p => ?_⟩
  rw [hmain]
  constructor <;> simp

theorem catchup_c10_witness :
    catchup_preflight_checks c10wEnv.pre = Except.ok () ∧
    c10wEnv.pre.backup_mode = BackupMode.DIFF_PTRACK ∧
    c10wEnv.ptrack_lsn = 0 ∧
    do_catchup c10wEnv = ([CatchupAction.startBackup],
        Except.error CatchupError.ptrackLsnMismatch) :=
  ⟨rfl, rfl, rfl, (catchup_c10 c10wEnv rfl rfl (Or.inl rfl)).1⟩

/-! ### Helper lemmas about Except results -/

theorem except_isOk_false_iff {α : Type} (x : Except CatchupError α) :
    x.isOk = false ↔ ∃ e, x = Except.error e := by
  cases x <;> simp [Except.isOk, Except.toBool]

/-- Failure of the whole tablespace sweep is failure of some entry. -/
theorem tbs_check_isOk_false_iff (remote : Bool) (mode : BackupMode)
    (mapping : String → String) (dirEmpty : String → Bool) (ps : List String) :
    (catchup_check_tablespaces_existance_in_tbsmapping remote mode mapping
        dirEmpty ps).isOk = false ↔
      ∃ q ∈ ps, (check_one_tablespace remote mode mapping dirEmpty q).isOk = false := by
  induction ps with
  | nil => simp [catchup_check_tablespaces_existance_in_tbsmapping, Except.isOk,
      Except.toBool]
  | cons p ps ih =>
    unfold catchup_check_tablespaces_existance_in_tbsmapping
    cases h1 : check_one_tablespace remote mode mapping dirEmpty p with
    | error e =>
      simp only [Except.isOk, Except.toBool]
      constructor
      · intro _
        exact ⟨p, List.mem_cons_self p ps, by simp [h1, Except.isOk, Except.toBool]⟩
      · intro _
        trivial
    | ok ws =>
      cases h2 : catchup_check_tablespaces_existance_in_tbsmapping remote mode
          mapping dirEmpty ps with
      | error e2 =>
        simp only [Except.isOk, Except.toBool]
        constructor
        · intro _
          rcases ih.mp (by simp [h2, Except.isOk, Except.toBool]) with ⟨q, hq, hqbad⟩
          exact ⟨q, List.mem_cons_of_mem p hq, hqbad⟩
        · intro _
          trivial
      | ok ws2 =>
        simp only [Except.isOk, Except.toBool]
        constructor
        · intro h
          cases h
        · rintro ⟨q, hq, hqbad⟩
          rcases List.mem_cons.mp hq with rfl | hq2
          · rw [h1] at hqbad
            simp [Except.isOk, Except.toBool] at hqbad
          · have : (catchup_check_tablespaces_existance_in_tbsmapping remote mode
                mapping dirEmpty ps).isOk = false := ih.mpr ⟨q, hq2, hqbad⟩
            rw [h2] at this
            simp [Except.isOk, Except.toBool] at this

/-- C5: a tablespace whose mapping lookup returns the path itself is
fatal for a local source and only a warning for a remote one; a resolved
path that is not absolute is fatal; in FULL mode a non-empty resolved
target directory is fatal; and the whole tablespace sweep of preflight
fails exactly when some reported tablespace hits a fatal condition, in
which case preflight as a whole fails (given the earlier checks passed). -/
theorem catchup_c5 (env : PreflightEnv) (p : String) :
    ((check_one_tablespace env.source_is_remote env.backup_mode
        env.tablespace_mapping env.tbs_dir_is_empty p).isOk = false ↔
      (p = env.tablespace_mapping p ∧ env.source_is_remote = false) ∨
        isAbsolutePath (env.tablespace_mapping p) = false ∨
        (env.backup_mode = .FULL ∧
          env.tbs_dir_is_empty (env.tablespace_mapping p) = false)) ∧
    (p = env.tablespace_mapping p → env.source_is_remote = false →
      check_one_tablespace env.source_is_remote env.backup_mode
          env.tablespace_mapping env.tbs_dir_is_empty p =
        Except.error (.tablespaceNotInMapping p)) ∧
    (p = env.tablespace_mapping p → env.source_is_remote = true →
      ∀ ws, check_one_tablespace env.source_is_remote env.backup_mode
          env.tablespace_mapping env.tbs_dir_is_empty p = Except.ok ws →
        ws = [TbsWarning.unmappedTablespaceRemote p]) ∧
    ((catchup_check_tablespaces_existance_in_tbsmapping env.source_is_remote
        env.backup_mode env.tablespace_mapping env.tbs_dir_is_empty
        env.tablespaces).isOk = false ↔
      ∃ q ∈ env.tablespaces,
        (check_one_tablespace env.source_is_remote env.backup_mode
          env.tablespace_mapping env.tbs_dir_is_empty q).isOk = false) ∧
    (runChecks ((preflight_check_list env).take 7) = Except.ok () →
      (catchup_check_tablespaces_existance_in_tbsmapping env.source_is_remote
        env.backup_mode env.tablespace_mapping env.tbs_dir_is_empty
        env.tablespaces).isOk = false →
      (catchup_preflight_checks env).isOk = false) := by
  refine ⟨?_, ?_, ?_, ?_, ?_⟩
  · unfold check_one_tablespace check_tablespace_target
    split_ifs
    all_goals
      first
        | exact iff_of_true rfl (by tauto)
        | exact iff_of_false (by simp [Except.isOk, Except.toBool]) (by tauto)
  · intro h1 h2
    unfold check_one_tablespace
    rw [if_pos h1, if_pos h2]
  · intro h1 h2 ws hws
    unfold check_one_tablespace check_tablespace_target at hws
    rw [if_pos h1] at hws
    rw [if_neg (by simp [h2])] at hws
    split_ifs at hws
    injection hws with hws2
    exact hws2.symm
  · exact tbs_check_isOk_false_iff env.source_is_remote env.backup_mode
      env.tablespace_mapping env.tbs_dir_is_empty env.tablespaces
  · intro h7 htbs
    rcases (except_isOk_false_iff _).mp htbs with ⟨e, he⟩
    unfold catchup_preflight_checks
    rw [← List.take_append_drop 7 (preflight_check_list env), runChecks_append, h7]
    have hdrop : (preflight_check_list env).drop 7 =
        [(catchup_check_tablespaces_existance_in_tbsmapping env.source_is_remote
            env.backup_mode env.tablespace_mapping env.tbs_dir_is_empty
            env.tablespaces).map (fun _ => ()),
          timeline_check env.backup_mode env.current_tli env.dest_redo
            env.source_history] := rfl
    rw [hdrop, he]
    simp [Except.isOk, Except.toBool, runChecks, Except.map]

theorem catchup_c5_witness :
    ((check_one_tablespace c5wEnv.source_is_remote c5wEnv.backup_mode
        c5wEnv.tablespace_mapping c5wEnv.tbs_dir_is_empty TS_SRC).isOk = false ↔
      (TS_SRC = c5wEnv.tablespace_mapping TS_SRC ∧ c5wEnv.source_is_remote = false) ∨
        isAbsolutePath (c5wEnv.tablespace_mapping TS_SRC) = false ∨
        (c5wEnv.backup_mode = .FULL ∧
          c5wEnv.tbs_dir_is_empty (c5wEnv.tablespace_mapping TS_SRC) = false)) :=
  (catchup_c5 c5wEnv TS_SRC).1

/-- C6: during timeline validation in incremental modes, a source on
timeline 1 consults no history document and the check fails exactly when
the destination's redo timeline is not 1; a source on any other timeline
makes a missing history fatal, and the check fails exactly when the
destination redo point does not satisfy the source's timeline history. -/
theorem catchup_c6 (mode : BackupMode) (currentTli : Nat) (destRedo : RedoParams)
    (history : Option (List TimeLineHistoryEntry)) (hmode : mode ≠ .FULL) :
    (currentTli = 1 →
      (∀ h2, timeline_check mode currentTli destRedo history =
        timeline_check mode currentTli destRedo h2) ∧
      ((timeline_check mode currentTli destRedo history).isOk = false ↔
        destRedo.tli ≠ 1)) ∧
    (currentTli ≠ 1 →
      (history = none →
        timeline_check mode currentTli destRedo history =
          Except.error CatchupError.cannotGetSourceHistory) ∧
      (∀ tls, history = some tls →
        ((timeline_check mode currentTli destRedo history).isOk = false ↔
          satisfy_timeline tls currentTli destRedo.tli destRedo.lsn = false))) := by
  constructor
  · intro h1
    subst h1
    constructor
    · intro h2
      unfold timeline_check
      simp only [if_pos hmode, if_neg (show ¬ (1 : Nat) ≠ 1 by omega)]
    · unfold timeline_check
      rw [if_pos hmode, if_neg (show ¬ (1 : Nat) ≠ 1 by omega)]
      split_ifs with hd <;> simp [Except.isOk, Except.toBool, hd]
  · intro h1
    constructor
    · intro hn
      subst hn
      unfold timeline_check
      rw [if_pos hmode, if_pos h1]
    · intro tls hs
      subst hs
      unfold timeline_check
      rw [if_pos hmode, if_pos h1]
      show (if satisfy_timeline tls currentTli destRedo.tli destRedo.lsn = false then
          (Except.error CatchupError.destNotInSourceHistory : Except CatchupError Unit)
        else Except.ok ()).isOk = false ↔
        satisfy_timeline tls currentTli destRedo.tli destRedo.lsn = false
      split_ifs with hsat <;> simp [Except.isOk, Except.toBool, hsat]

theorem catchup_c6_witness :
    BackupMode.DIFF_DELTA ≠ BackupMode.FULL ∧
    ((timeline_check BackupMode.DIFF_DELTA 3 { tli := 2, lsn := 10 }
        (some [{ tli := 2, switchpoint := 15 }])).isOk = false ↔
      satisfy_timeline [{ tli := 2, switchpoint := 15 }] 3 2 10 = false) :=
  ⟨by decide,
    ((catchup_c6 BackupMode.DIFF_DELTA 3 { tli := 2, lsn := 10 }
        (some [{ tli := 2, switchpoint := 15 }]) (by decide)).2
      (by decide)).2 [{ tli := 2, switchpoint := 15 }] rfl⟩

/-! ### Order lemmas for the comparators and insertion sort -/

theorem chListLt_cons_iff (a b : Char) (as bs : List Char) :
    chListLt (a :: as) (b :: bs) = true ↔ a < b ∨ (a = b ∧ chListLt as bs = true) := by
  show (if a < b then true else if b < a then false else chListLt as bs) = true ↔
    a < b ∨ (a = b ∧ chListLt as bs = true)
  split_ifs with h1 h2
  · exact iff_of_true rfl (Or.inl h1)
  · refine iff_of_false (by simp) ?_
    rintro (h | ⟨rfl, h⟩)
    · exact h1 h
    · exact lt_irrefl _ h2
  · have heq : a = b := le_antisymm (le_of_not_lt h2) (le_of_not_lt h1)
    subst heq
    constructor
    · intro h3
      exact Or.inr ⟨rfl, h3⟩
    · rintro (h3 | ⟨h4, h3⟩)
      · exact absurd h3 (lt_irrefl a)
      · exact h3

theorem chListLt_trichotomy (as bs : List Char) :
    chListLt as bs = true ∨ chListLt bs as = true ∨ as = bs := by
  induction as generalizing bs with
  | nil =>
    cases bs with
    | nil => exact Or.inr (Or.inr rfl)
    | cons b bs => exact Or.inl rfl
  | cons a as ih =>
    cases bs with
    | nil => exact Or.inr (Or.inl rfl)
    | cons b bs =>
      rcases lt_trichotomy a b with h | h | h
      · exact Or.inl ((chListLt_cons_iff a b as bs).mpr (Or.inl h))
      · subst h
        rcases ih bs with h2 | h2 | h2
        · exact Or.inl ((chListLt_cons_iff a a as bs).mpr (Or.inr ⟨rfl, h2⟩))
        · exact Or.inr (Or.inl ((chListLt_cons_iff a a bs as).mpr (Or.inr ⟨rfl, h2⟩)))
        · exact Or.inr (Or.inr (by rw [h2]))
      · exact Or.inr (Or.inl ((chListLt_cons_iff b a bs as).mpr (Or.inl h)))

theorem chListLt_trans {as bs cs : List Char} (h1 : chListLt as bs = true)
    (h2 : chListLt bs cs = true) : chListLt as cs = true := by
  induction as generalizing bs cs with
  | nil =>
    cases cs with
    | nil =>
      cases bs with
      | nil => exact h1
      | cons b bs2 => simp [chListLt] at h2
    | cons c cs2 => rfl
  | cons a as ih =>
    cases bs with
    | nil => simp [chListLt] at h1
    | cons b bs2 =>
      cases cs with
      | nil => simp [chListLt] at h2
      | cons c cs2 =>
        rcases (chListLt_cons_iff a b as bs2).mp h1 with hab | ⟨rfl, hab⟩
        · rcases (chListLt_cons_iff b c bs2 cs2).mp h2 with hbc | ⟨rfl, hbc⟩
          · exact (chListLt_cons_iff a c as cs2).mpr (Or.inl (lt_trans hab hbc))
          · exact (chListLt_cons_iff a b as cs2).mpr (Or.inl hab)
        · rcases (chListLt_cons_iff a c bs2 cs2).mp h2 with hbc | ⟨rfl, hbc⟩
          · exact (chListLt_cons_iff a c as cs2).mpr (Or.inl hbc)
          · exact (chListLt_cons_iff a a as cs2).mpr (Or.inr ⟨rfl, ih hab hbc⟩)

theorem pathLt_trans {a b c : String} (h1 : pathLt a b = true)
    (h2 : pathLt b c = true) : pathLt a c = true := chListLt_trans h1 h2

theorem pathLt_trichotomy (a b : String) :
    pathLt a b = true ∨ pathLt b a = true ∨ a = b := by
  rcases chListLt_trichotomy a.data b.data with h | h | h
  · exact Or.inl h
  · exact Or.inr (Or.inl h)
  · exact Or.inr (Or.inr (String.ext h))

theorem fileKeyLe_total (a b : pgFile) : fileKeyLe a b = true ∨ fileKeyLe b a = true := by
  unfold fileKeyLe
  rcases pathLt_trichotomy a.rel_path b.rel_path with h | h | h
  · exact Or.inl (by simp [h])
  · exact Or.inr (by simp [h])
  · rcases Nat.le_total a.ext_dir_num b.ext_dir_num with h2 | h2
    · exact Or.inl (by simp [h, h2])
    · exact Or.inr (by simp [h, h2])

theorem fileKeyLe_trans {a b c : pgFile} (h1 : fileKeyLe a b = true)
    (h2 : fileKeyLe b c = true) : fileKeyLe a c = true := by
  unfold fileKeyLe at h1 h2 ⊢
  simp only [Bool.or_eq_true, Bool.and_eq_true, beq_iff_eq, decide_eq_true_eq] at h1 h2 ⊢
  rcases h1 with h1 | ⟨h1e, h1n⟩
  · rcases h2 with h2 | ⟨h2e, h2n⟩
    · exact Or.inl (pathLt_trans h1 h2)
    · exact Or.inl (by rw [← h2e]; exact h1)
  · rcases h2 with h2 | ⟨h2e, h2n⟩
    · exact Or.inl (by rw [h1e]; exact h2)
    · exact Or.inr ⟨h1e.trans h2e, le_trans h1n h2n⟩

theorem fileKeyGe_total (a b : pgFile) : fileKeyGe a b = true ∨ fileKeyGe b a = true := by
  unfold fileKeyGe
  exact fileKeyLe_total b a

theorem fileKeyGe_trans {a b c : pgFile} (h1 : fileKeyGe a b = true)
    (h2 : fileKeyGe b c = true) : fileKeyGe a c = true := fileKeyLe_trans h2 h1

theorem isortInsert_perm {α : Type} (le : α → α → Bool) (a : α) (l : List α) :
    (isortInsert le a l).Perm (a :: l) := by
  induction l with
  | nil => exact List.Perm.refl _
  | cons b bs ih =>
    unfold isortInsert
    split_ifs with h
    · exact List.Perm.refl _
    · exact (ih.cons b).trans (List.Perm.swap a b bs)

theorem isort_perm {α : Type} (le : α → α → Bool) (l : List α) :
    (isort le l).Perm l := by
  induction l with
  | nil => exact List.Perm.refl _
  | cons a as ih => exact (isortInsert_perm le a (isort le as)).trans (ih.cons a)

theorem mem_isort {α : Type} (le : α → α → Bool) (x : α) (l : List α) :
    x ∈ isort le l ↔ x ∈ l :=
  (isort_perm le l).mem_iff

theorem mem_isortInsert {α : Type} (le : α → α → Bool) (x a : α) (l : List α) :
    x ∈ isortInsert le a l ↔ x = a ∨ x ∈ l := by
  rw [(isortInsert_perm le a l).mem_iff, List.mem_cons]

theorem pairwise_isortInsert {α : Type} (le : α → α → Bool)
    (htot : ∀ x y, le x y = true ∨ le y x = true)
    (htrans : ∀ x y z, le x y = true → le y z = true → le x z = true)
    (a : α) (l : List α) (h : l.Pairwise (fun x y => le x y = true)) :
    (isortInsert le a l).Pairwise (fun x y => le x y = true) := by
  induction l with
  | nil => simp [isortInsert]
  | cons b bs ih =>
    rw [List.pairwise_cons] at h
    unfold isortInsert
    split_ifs with hab
    · rw [List.pairwise_cons]
      refine ⟨?_, List.pairwise_cons.mpr h⟩
      intro x hx
      rcases List.mem_cons.mp hx with rfl | hx2
      · exact hab
      · exact htrans a b x hab (h.1 x hx2)
    · rw [List.pairwise_cons]
      refine ⟨?_, ih h.2⟩
      intro x hx
      rcases (mem_isortInsert le x a bs).mp hx with rfl | hx2
      · rcases htot x b with h3 | h3
        · exact absurd h3 hab
        · exact h3
      · exact h.1 x hx2

theorem pairwise_isort {α : Type} (le : α → α → Bool)
    (htot : ∀ x y, le x y = true ∨ le y x = true)
    (htrans : ∀ x y z, le x y = true → le y z = true → le x z = true)
    (l : List α) : (isort le l).Pairwise (fun x y => le x y = true) := by
  induction l with
  | nil => simp [isort]
  | cons a as ih => exact pairwise_isortInsert le htot htrans a _ ih

/-! ### Lemmas about the reaper -/

theorem reaper_loop_eq (source : List pgFile) (l : List pgFile) :
    reaper_loop source l =
      ((l.filter (fun f => is_redundant source f)).map
          (fun f => CatchupAction.deleteFile f.rel_path),
        l.filter (fun f => !(is_redundant source f))) := by
  induction l with
  | nil => rfl
  | cons f fs ih =>
    simp only [reaper_loop]
    rw [ih]
    cases h : is_redundant source f with
    | true => simp [List.filter_cons, h]
    | false => simp [List.filter_cons, h]

theorem is_redundant_iff (source : List pgFile) (f : pgFile) :
    is_redundant source f = true ↔
      (¬ ∃ s ∈ source, s.rel_path = f.rel_path ∧ s.ext_dir_num = f.ext_dir_num) ∨
        is_relmapper_file f = true := by
  unfold is_redundant source_has_entry
  rw [Bool.or_eq_true, Bool.not_eq_true']
  rw [List.any_eq_false]
  constructor
  · rintro (h | h)
    · refine Or.inl ?_
      rintro ⟨s, hs, hpath, hext⟩
      have := h s hs
      simp [hpath, hext] at this
    · exact Or.inr h
  · rintro (h | h)
    · refine Or.inl ?_
      intro s hs
      simp only [Bool.and_eq_true, beq_iff_eq, not_and]
      intro hpath hext
      exact h ⟨s, hs, hpath, hext⟩
    · exact Or.inr h

/-- C4: in the reaper, a destination entry survives iff a source entry
with its (relative path, external-dir-num 0) key exists and it is not the
relation-mapper file; the deletion action for an entry is emitted iff the
entry is redundant, redundancy being exactly absence from the source or
being the relation-mapper file (always forced redundant); and the swept
list is the destination list sorted descending by relative path. -/
theorem catchup_c4 (source dest : List pgFile) (f : pgFile) (hf : f ∈ dest)
    (hext : f.ext_dir_num = 0)
    (hnd : (dest.map (fun g => g.rel_path)).Nodup) :
    (f ∈ (catchup_reaper source dest).2 ↔
      (∃ s ∈ source, s.rel_path = f.rel_path ∧ s.ext_dir_num = 0) ∧
        is_relmapper_file f = false) ∧
    (CatchupAction.deleteFile f.rel_path ∈ (catchup_reaper source dest).1 ↔
      is_redundant source f = true) ∧
    (is_redundant source f = true ↔
      (¬ ∃ s ∈ source, s.rel_path = f.rel_path ∧ s.ext_dir_num = 0) ∨
        is_relmapper_file f = true) ∧
    (isort fileKeyGe dest).Pairwise (fun a b => fileKeyGe a b = true) := by
  have hred : is_redundant source f = true ↔
      (¬ ∃ s ∈ source, s.rel_path = f.rel_path ∧ s.ext_dir_num = 0) ∨
        is_relmapper_file f = true := by
    rw [is_redundant_iff source f, hext]
  have hloop := reaper_loop_eq source (isort fileKeyGe dest)
  refine ⟨?_, ?_, hred, pairwise_isort fileKeyGe fileKeyGe_total
    (fun x y z hxy hyz => fileKeyGe_trans hxy hyz) dest⟩
  · unfold catchup_reaper
    rw [hloop]
    have h1 : f ∈ (isort fileKeyGe dest).filter (fun g => !(is_redundant source g)) ↔
        is_redundant source f = false := by
      rw [List.mem_filter, mem_isort]
      simp [hf, Bool.not_eq_true']
    rw [h1, ← Bool.not_eq_true, hred, not_or, not_not, Bool.not_eq_true]
  · unfold catchup_reaper
    rw [hloop]
    constructor
    · intro hmem
      rcases List.mem_map.mp hmem with ⟨g, hg, hgeq⟩
      rcases List.mem_filter.mp hg with ⟨hgs, hgred⟩
      have hgd : g ∈ dest := (mem_isort fileKeyGe g dest).mp hgs
      have hpatheq : g.rel_path = f.rel_path := by
        injection hgeq
      have hgf : g = f := List.inj_on_of_nodup_map hnd hgd hf hpatheq
      rw [← hgf]
      exact hgred
    · intro hred2
      exact List.mem_map.mpr
        ⟨f, List.mem_filter.mpr ⟨(mem_isort fileKeyGe f dest).mpr hf, hred2⟩, rfl⟩

theorem catchup_c4_witness :
    fRel100 ∈ c4wDest ∧ fRel100.ext_dir_num = 0 ∧
    (c4wDest.map (fun g => g.rel_path)).Nodup ∧
    (fRel100 ∈ (catchup_reaper c4wSource c4wDest).2 ↔
      (∃ s ∈ c4wSource, s.rel_path = fRel100.rel_path ∧ s.ext_dir_num = 0) ∧
        is_relmapper_file fRel100 = false) :=
  ⟨by decide, rfl, by decide,
    (catchup_c4 c4wSource c4wDest fRel100 (by decide) rfl (by decide)).1⟩

/-! ### Trace lemmas for the phases of do_catchup -/

theorem bindT_pair_ok {α β : Type} (l : List CatchupAction) (a : α)
    (f : α → TraceM β) : bindT (l, Except.ok a) f = (l ++ (f a).1, (f a).2) := rfl

theorem bindT_end_pure (x : TraceM Unit) :
    bindT x (fun _ => pureT (0 : Nat)) = (x.1, x.2.map (fun _ => 0)) := by
  obtain ⟨as, r⟩ := x
  cases r <;> simp [bindT, pureT, Except.map]

/-- The worker pool copies exactly the non-directory entries of its list,
in list order, and returns whether all copies succeeded. -/
theorem pool_eq (copyOk : String → Bool) (l : List pgFile) :
    catchup_multithreaded_copy copyOk l =
      (l.filterMap (fun f => if f.kind = .directory then none
          else some (CatchupAction.copyFile f.rel_path)),
        Except.ok (pool_all_ok copyOk l)) := by
  induction l with
  | nil => rfl
  | cons f fs ih =>
    by_cases h : f.kind = FileKind.directory
    · show (if f.kind = FileKind.directory then catchup_multithreaded_copy copyOk fs
        else _) = _
      rw [if_pos h, ih]
      simp [pool_all_ok, List.filterMap_cons, h]
    · show (if f.kind = FileKind.directory then catchup_multithreaded_copy copyOk fs
        else bindT (emit (.copyFile f.rel_path)) fun _ =>
          bindT (catchup_multithreaded_copy copyOk fs) fun rest =>
            pureT (copyOk f.rel_path && rest)) = _
      rw [if_neg h, ih]
      simp only [bindT_emit, bindT_pair_ok, pureT, List.append_nil]
      have hb : (f.kind == FileKind.directory) = false := by simp [h]
      simp [pool_all_ok, List.filterMap_cons, h, hb]

/-- The directory-materialization phase emits only mkdir and
tablespace-symlink actions. -/
theorem create_dirs_actions (mapping symtgt : String → String) (l : List pgFile) :
    ∀ a ∈ (catchup_create_dirs mapping symtgt l).1,
      (∃ p, a = CatchupAction.mkdirDir p) ∨
        ∃ p q, a = CatchupAction.createTablespaceDirAndSymlink p q := by
  induction l with
  | nil =>
    intro a ha
    simp [catchup_create_dirs, pureT] at ha
  | cons f fs ih =>
    intro a ha
    unfold catchup_create_dirs at ha
    split_ifs at ha with h1 h2 h3
    · exact ih a ha
    · rw [bindT_emit] at ha
      rcases List.mem_cons.mp ha with rfl | ha2
      · exact Or.inl ⟨f.rel_path, rfl⟩
      · exact ih a ha2
    · simp [failT] at ha
    · rw [bindT_emit] at ha
      rcases List.mem_cons.mp ha with rfl | ha2
      · exact Or.inr ⟨mapping (symtgt f.rel_path), f.rel_path, rfl⟩
      · exact ih a ha2

/-- The reaper emits only deletion actions. -/
theorem reaper_actions (source dest : List pgFile) :
    ∀ a ∈ (catchup_reaper source dest).1, ∃ p, a = CatchupAction.deleteFile p := by
  intro a ha
  unfold catchup_reaper at ha
  rw [reaper_loop_eq] at ha
  rcases List.mem_map.mp ha with ⟨g, hg, hgeq⟩
  exact ⟨g.rel_path, hgeq.symm⟩

/-- Closed form of the end-of-backup trace. -/
theorem end_of_backup_trace (env : CatchupEnv) :
    (catchup_end_of_backup env).1 =
      (if env.pre.from_replica = false ∧
          ¬ (env.server_version < 90600 ∧ env.is_superuser = false) then
        [CatchupAction.createRestorePoint] else []) ++
      CatchupAction.stopBackupSend :: CatchupAction.stopBackupConsume ::
      CatchupAction.writeBackupLabel ::
      (if env.wal_stream_ok = false then []
       else
        (if env.pre.from_replica = true ∧ env.pre.exclusive_backup = false then
          [CatchupAction.setMinRecoveryPoint] else []) ++
        (if env.sync_dest_files then [CatchupAction.syncFiles] else [])) := by
  unfold catchup_end_of_backup
  split_ifs <;> simp [bindT, emit, pureT, failT]

theorem end_of_backup_actions (env : CatchupEnv) :
    ∀ a ∈ (catchup_end_of_backup env).1,
      a = CatchupAction.createRestorePoint ∨ a = CatchupAction.stopBackupSend ∨
      a = CatchupAction.stopBackupConsume ∨ a = CatchupAction.writeBackupLabel ∨
      a = CatchupAction.setMinRecoveryPoint ∨ a = CatchupAction.syncFiles := by
  intro a ha
  rw [end_of_backup_trace] at ha
  split_ifs at ha <;> simp at ha <;> tauto

/-! ### Lemmas about the removal of the control-file entry -/

theorem eraseP_no_more {α : Type} (p : α → Bool) (l : List α)
    (h1 : (l.filter p).length ≤ 1) : ∀ x ∈ l.eraseP p, p x = false := by
  induction l with
  | nil =>
    intro x hx
    simp [List.eraseP_nil] at hx
  | cons a as ih =>
    intro x hx
    by_cases ha : p a = true
    · rw [List.eraseP_cons_of_pos ha] at hx
      have hfil : as.filter p = [] := by
        rw [List.filter_cons_of_pos ha] at h1
        simp only [List.length_cons] at h1
        have : (as.filter p).length = 0 := by omega
        exact List.length_eq_zero.mp this
      cases hx2 : p x with
      | false => rfl
      | true =>
        exfalso
        have hmem : x ∈ as.filter p := List.mem_filter.mpr ⟨hx, hx2⟩
        rw [hfil] at hmem
        cases hmem
    · have ha2 : p a = false := by
        cases hpa : p a
        · rfl
        · exact absurd hpa ha
      rw [List.eraseP_cons_of_neg (by simp [ha2])] at hx
      rcases List.mem_cons.mp hx with rfl | hx2
      · exact ha2
      · have h1a : (as.filter p).length ≤ 1 := by
          rw [List.filter_cons_of_neg (by simp [ha2])] at h1
          exact h1
        exact ih h1a x hx2

theorem nodup_key_filter_le_one {α β : Type} (key : α → β) (p : α → Bool)
    (l : List α) (hnd : (l.map key).Nodup) (k : β)
    (hp : ∀ x, p x = true → key x = k) : (l.filter p).length ≤ 1 := by
  have hsub : ((l.filter p).map key).Nodup :=
    List.Nodup.sublist (List.Sublist.map key (List.filter_sublist l)) hnd
  have hall : ∀ y ∈ (l.filter p).map key, y = k := by
    intro y hy
    rcases List.mem_map.mp hy with ⟨x, hx, rfl⟩
    exact hp x (List.mem_filter.mp hx).2
  rw [← List.length_map (l.filter p) key]
  cases hm : (l.filter p).map key with
  | nil => simp
  | cons y1 t =>
    cases t with
    | nil => simp
    | cons y2 t2 =>
      exfalso
      rw [hm] at hsub hall
      have hy1 := hall y1 (by simp)
      have hy2 := hall y2 (by simp)
      rw [List.nodup_cons] at hsub
      exact hsub.1 (by simp [hy1, hy2])

/-- After the control-file entry is removed, no entry of the remaining
list carries the control-file key. -/
theorem rest_no_control {sorted : List pgFile} {ctrl : pgFile}
    {rest : List pgFile}
    (hnd : (sorted.map (fun g => g.rel_path)).Nodup)
    (hctrl : remove_control_file sorted = some (ctrl, rest)) :
    ∀ g ∈ rest, isControlEntry g = false := by
  unfold remove_control_file at hctrl
  cases hfind : sorted.find? isControlEntry with
  | none =>
    rw [hfind] at hctrl
    cases hctrl
  | some c =>
    rw [hfind] at hctrl
    simp only [Option.some.injEq, Prod.mk.injEq] at hctrl
    rw [← hctrl.2]
    apply eraseP_no_more
    apply nodup_key_filter_le_one (fun g => g.rel_path) isControlEntry sorted hnd
      XLOG_CONTROL_FILE
    intro x hx
    unfold isControlEntry at hx
    simp only [Bool.and_eq_true, beq_iff_eq] at hx
    exact hx.1

/-- The entry found by the control-file search has the control-file key. -/
theorem ctrl_is_control {sorted : List pgFile} {ctrl : pgFile}
    {rest : List pgFile}
    (hctrl : remove_control_file sorted = some (ctrl, rest)) :
    ctrl.rel_path = XLOG_CONTROL_FILE ∧ ctrl.ext_dir_num = 0 := by
  unfold remove_control_file at hctrl
  cases hfind : sorted.find? isControlEntry with
  | none =>
    rw [hfind] at hctrl
    cases hctrl
  | some c =>
    rw [hfind] at hctrl
    simp only [Option.some.injEq, Prod.mk.injEq] at hctrl
    have hc := List.find?_some hfind
    unfold isControlEntry at hc
    simp only [Bool.and_eq_true, beq_iff_eq] at hc
    rw [← hctrl.1]
    exact hc

/-- The remaining list is a sublist of the sorted list. -/
theorem rest_sublist {sorted : List pgFile} {ctrl : pgFile} {rest : List pgFile}
    (hctrl : remove_control_file sorted = some (ctrl, rest)) :
    rest.Sublist sorted := by
  unfold remove_control_file at hctrl
  cases hfind : sorted.find? isControlEntry with
  | none =>
    rw [hfind] at hctrl
    cases hctrl
  | some c =>
    rw [hfind] at hctrl
    simp only [Option.some.injEq, Prod.mk.injEq] at hctrl
    rw [← hctrl.2]
    exact List.eraseP_sublist sorted

/-- Closed form of a `do_catchup` run that reaches the transfer phase:
preflight and the LSN guards pass, directory materialization succeeds and
the control-file entry is found. -/
theorem do_catchup_reached (env : CatchupEnv) (ctrl : pgFile) (rest : List pgFile)
    (hpre : catchup_preflight_checks env.pre = Except.ok ())
    (hpt : ¬ (env.pre.backup_mode = .DIFF_PTRACK ∧
        (env.ptrack_lsn > env.pre.dest_redo.lsn ∨ env.ptrack_lsn = 0)))
    (hst : ¬ (env.pre.backup_mode ≠ .FULL ∧ env.pre.dest_redo.lsn > env.start_lsn))
    (hdirs : (catchup_create_dirs env.pre.tablespace_mapping env.symlink_target
        (isort fileKeyLe env.source_filelist)).2 = Except.ok ())
    (hctrl : remove_control_file (isort fileKeyLe env.source_filelist) =
        some (ctrl, rest)) :
    do_catchup env =
      (CatchupAction.startBackup :: CatchupAction.mkdirWalDir ::
        CatchupAction.startWalStreaming ::
        ((catchup_create_dirs env.pre.tablespace_mapping env.symlink_target
            (isort fileKeyLe env.source_filelist)).1 ++
          ((if env.pre.backup_mode ≠ .FULL then
              (catchup_reaper rest env.dest_filelist).1 else []) ++
            (((isort fileSizeGe rest).filterMap (fun f =>
                if f.kind = .directory then none
                else some (CatchupAction.copyFile f.rel_path))) ++
              (if pool_all_ok env.copy_ok (isort fileSizeGe rest) then
                CatchupAction.copyControlFile ctrl.rel_path ::
                  (catchup_end_of_backup env).1
              else [])))),
        if pool_all_ok env.copy_ok (isort fileSizeGe rest) then
          (catchup_end_of_backup env).2.map (fun _ => 0)
        else Except.error CatchupError.dataTransferFailed) := by
  unfold do_catchup
  rw [hpre, liftE_okv, bindT_pureT, bindT_emit, if_neg hpt, bindT_pureT,
    if_neg hst, bindT_pureT, bindT_emit, bindT_emit, bindT_of_ok _ hdirs, hctrl]
  simp only [catchup_transfer_and_finish]
  rw [pool_eq]
  by_cases hfull : env.pre.backup_mode ≠ BackupMode.FULL <;>
    by_cases hok : pool_all_ok env.copy_ok (isort fileSizeGe rest) = true <;>
      simp [hfull, hok, bindT_pair_ok, bindT_pureT, bindT_emit, bindT_failT,
        bindT_end_pure, pureT, List.append_assoc]
  all_goals
    exact ⟨congrArg Prod.fst (bindT_end_pure (catchup_end_of_backup env)),
      congrArg Prod.snd (bindT_end_pure (catchup_end_of_backup env))⟩

set_option maxHeartbeats 1000000 in
/-- C3: the control-file entry is removed from the source list before
the pool runs — the list handed to the pool has no entry with the
control-file path and the pool never emits a copy of it; the control file
is copied (as the distinguished held-back copy action) iff every worker
succeeded; and the trace splits so that all pool file copies precede any
control-file copy. -/
theorem catchup_c3 (env : CatchupEnv) (ctrl : pgFile) (rest : List pgFile)
    (hpre : catchup_preflight_checks env.pre = Except.ok ())
    (hpt : ¬ (env.pre.backup_mode = .DIFF_PTRACK ∧
        (env.ptrack_lsn > env.pre.dest_redo.lsn ∨ env.ptrack_lsn = 0)))
    (hst : ¬ (env.pre.backup_mode ≠ .FULL ∧ env.pre.dest_redo.lsn > env.start_lsn))
    (hdirs : (catchup_create_dirs env.pre.tablespace_mapping env.symlink_target
        (isort fileKeyLe env.source_filelist)).2 = Except.ok ())
    (hctrl : remove_control_file (isort fileKeyLe env.source_filelist) =
        some (ctrl, rest))
    (hext : ∀ f ∈ env.source_filelist, f.ext_dir_num = 0)
    (hnd : (env.source_filelist.map (fun g => g.rel_path)).Nodup) :
    (∀ g ∈ rest, g.rel_path ≠ XLOG_CONTROL_FILE) ∧
    (CatchupAction.copyFile XLOG_CONTROL_FILE ∉ (do_catchup env).1) ∧
    (CatchupAction.copyControlFile ctrl.rel_path ∈ (do_catchup env).1 ↔
      pool_all_ok env.copy_ok (isort fileSizeGe rest) = true) ∧
    (∃ xs ys, (do_catchup env).1 = xs ++ ys ∧
      (∀ a ∈ xs, ∀ p, a ≠ CatchupAction.copyControlFile p) ∧
      (∀ a ∈ ys, ∀ p, a ≠ CatchupAction.copyFile p)) := by
  have hnds : ((isort fileKeyLe env.source_filelist).map
      (fun g => g.rel_path)).Nodup :=
    (((isort_perm fileKeyLe env.source_filelist).map
      (fun g => g.rel_path)).nodup_iff).mpr hnd
  have hexts : ∀ f ∈ isort fileKeyLe env.source_filelist, f.ext_dir_num = 0 :=
    fun f hf => hext f ((mem_isort fileKeyLe f env.source_filelist).mp hf)
  have hrest0 := rest_no_control hnds hctrl
  have hrestsub := rest_sublist hctrl
  have hc1 : ∀ g ∈ rest, g.rel_path ≠ XLOG_CONTROL_FILE := by
    intro g hg hgp
    have hge : g.ext_dir_num = 0 := hexts g (hrestsub.subset hg)
    have hce : isControlEntry g = true := by
      unfold isControlEntry
      simp [hgp, hge]
    rw [hrest0 g hg] at hce
    cases hce
  have hcf := do_catchup_reached env ctrl rest hpre hpt hst hdirs hctrl
  have hdirsmem := create_dirs_actions env.pre.tablespace_mapping
    env.symlink_target (isort fileKeyLe env.source_filelist)
  have hpool : ∀ a ∈ (isort fileSizeGe rest).filterMap (fun f =>
      if f.kind = FileKind.directory then none
      else some (CatchupAction.copyFile f.rel_path)),
      ∃ g ∈ rest, a = CatchupAction.copyFile g.rel_path := by
    intro a ha
    rcases List.mem_filterMap.mp ha with ⟨g, hg, hgeq⟩
    by_cases hk : g.kind = FileKind.directory
    · rw [if_pos hk] at hgeq
      cases hgeq
    · rw [if_neg hk] at hgeq
      injection hgeq with h
      exact ⟨g, (mem_isort fileSizeGe g rest).mp hg, h.symm⟩
  refine ⟨hc1, ?_, ?_, ?_⟩
  · intro hmem
    rw [hcf] at hmem
    simp only [List.mem_cons, List.mem_append] at hmem
    rcases hmem with h | h | h | hD | hR | hP | hC
    · cases h
    · cases h
    · cases h
    · rcases hdirsmem _ hD with ⟨p, hp⟩ | ⟨p, q, hp⟩ <;> cases hp
    · by_cases hfull : env.pre.backup_mode ≠ BackupMode.FULL
      · rw [if_pos hfull] at hR
        rcases reaper_actions rest env.dest_filelist _ hR with ⟨p, hp⟩
        cases hp
      · rw [if_neg hfull] at hR
        cases hR
    · rcases hpool _ hP with ⟨g, hg, hp⟩
      injection hp with h2
      exact hc1 g hg h2.symm
    · cases hok2 : pool_all_ok env.copy_ok (isort fileSizeGe rest) with
      | true =>
        rw [if_pos hok2] at hC
        rcases List.mem_cons.mp hC with h | hC2
        · cases h
        · rcases end_of_backup_actions env _ hC2 with h | h | h | h | h | h <;>
            cases h
      | false =>
        rw [if_neg (by simp [hok2])] at hC
        cases hC
  · constructor
    · intro hmem
      rw [hcf] at hmem
      simp only [List.mem_cons, List.mem_append] at hmem
      rcases hmem with h | h | h | hD | hR | hP | hC
      · cases h
      · cases h
      · cases h
      · rcases hdirsmem _ hD with ⟨p, hp⟩ | ⟨p, q, hp⟩ <;> cases hp
      · by_cases hfull : env.pre.backup_mode ≠ BackupMode.FULL
        · rw [if_pos hfull] at hR
          rcases reaper_actions rest env.dest_filelist _ hR with ⟨p, hp⟩
          cases hp
        · rw [if_neg hfull] at hR
          cases hR
      · rcases hpool _ hP with ⟨g, hg, hp⟩
        cases hp
      · cases hok2 : pool_all_ok env.copy_ok (isort fileSizeGe rest) with
        | true => rfl
        | false =>
          rw [if_neg (by simp [hok2])] at hC
          cases hC
    · intro hok2
      rw [hcf]
      simp [hok2, List.mem_append]
  · refine ⟨CatchupAction.startBackup :: CatchupAction.mkdirWalDir ::
      CatchupAction.startWalStreaming ::
      ((catchup_create_dirs env.pre.tablespace_mapping env.symlink_target
          (isort fileKeyLe env.source_filelist)).1 ++
        ((if env.pre.backup_mode ≠ .FULL then
            (catchup_reaper rest env.dest_filelist).1 else []) ++
          ((isort fileSizeGe rest).filterMap (fun f =>
            if f.kind = .directory then none
            else some (CatchupAction.copyFile f.rel_path))))),
      (if pool_all_ok env.copy_ok (isort fileSizeGe rest) then
        CatchupAction.copyControlFile ctrl.rel_path ::
          (catchup_end_of_backup env).1
      else []), ?_, ?_, ?_⟩
    · rw [hcf]
      simp [List.append_assoc]
    · intro a ha p
      simp only [List.mem_cons, List.mem_append] at ha
      rcases ha with rfl | rfl | rfl | hD | hR | hP
      · simp
      · simp
      · simp
      · rcases hdirsmem a hD with ⟨r, rfl⟩ | ⟨r, q2, rfl⟩ <;> simp
      · by_cases hfull : env.pre.backup_mode ≠ BackupMode.FULL
        · rw [if_pos hfull] at hR
          rcases reaper_actions rest env.dest_filelist a hR with ⟨r, rfl⟩
          simp
        · rw [if_neg hfull] at hR
          cases hR
      · rcases hpool a hP with ⟨g, hg, rfl⟩
        simp
    · intro a ha p
      cases hok2 : pool_all_ok env.copy_ok (isort fileSizeGe rest) with
      | true =>
        rw [if_pos hok2] at ha
        rcases List.mem_cons.mp ha with rfl | ha2
        · simp
        · rcases end_of_backup_actions env a ha2 with h | h | h | h | h | h <;>
            simp [h]
      | false =>
        rw [if_neg (by simp [hok2])] at ha
        cases ha

theorem catchup_c3_witness :
    remove_control_file (isort fileKeyLe cFullEnv.source_filelist) =
        some (fControl, cFullRest) ∧
    ((∀ g ∈ cFullRest, g.rel_path ≠ XLOG_CONTROL_FILE) ∧
      (CatchupAction.copyFile XLOG_CONTROL_FILE ∉ (do_catchup cFullEnv).1) ∧
      (CatchupAction.copyControlFile fControl.rel_path ∈ (do_catchup cFullEnv).1 ↔
        pool_all_ok cFullEnv.copy_ok (isort fileSizeGe cFullRest) = true) ∧
      (∃ xs ys, (do_catchup cFullEnv).1 = xs ++ ys ∧
        (∀ a ∈ xs, ∀ p, a ≠ CatchupAction.copyControlFile p) ∧
        (∀ a ∈ ys, ∀ p, a ≠ CatchupAction.copyFile p))) :=
  ⟨by decide,
    catchup_c3 cFullEnv fControl cFullRest rfl (by decide) (by decide) rfl
      (by decide) (by decide) (by decide)⟩

/-- Every action of the pool trace is a file copy of a pool-list entry. -/
theorem pool_trace_shape (rest : List pgFile) :
    ∀ a ∈ (isort fileSizeGe rest).filterMap (fun f =>
        if f.kind = FileKind.directory then none
        else some (CatchupAction.copyFile f.rel_path)),
      ∃ g ∈ rest, a = CatchupAction.copyFile g.rel_path := by
  intro a ha
  rcases List.mem_filterMap.mp ha with ⟨g, hg, hgeq⟩
  by_cases hk : g.kind = FileKind.directory
  · rw [if_pos hk] at hgeq
    cases hgeq
  · rw [if_neg hk] at hgeq
    injection hgeq with h
    exact ⟨g, (mem_isort fileSizeGe g rest).mp hg, h.symm⟩

/-- C8 counterexample: the claim allows a restore point only for a
superuser, but the code creates one for any non-replica source on a
modern (non-exclusive-capable, version ≥ 9.6) server even when the
connected role is not superuser. -/
theorem catchup_c8_counterexample :
    c8cexEnv.pre.from_replica = false ∧
    c8cexEnv.is_superuser = false ∧
    90600 ≤ c8cexEnv.server_version ∧
    c8cexEnv.pre.exclusive_backup = false ∧
    CatchupAction.createRestorePoint ∈ (do_catchup c8cexEnv).1 := by
  refine ⟨rfl, rfl, by decide, rfl, ?_⟩
  decide

set_option maxHeartbeats 1000000 in
/-- C8 amended: before stop-backup is sent a restore point is created on
the source exactly when the source is not a replica and it is not the
case that the server version is below 9.6 with a non-superuser role; in
the trace the (possible) restore-point creation precedes the
stop-backup send and never follows it. -/
theorem catchup_c8_amended (env : CatchupEnv) (ctrl : pgFile) (rest : List pgFile)
    (hpre : catchup_preflight_checks env.pre = Except.ok ())
    (hpt : ¬ (env.pre.backup_mode = .DIFF_PTRACK ∧
        (env.ptrack_lsn > env.pre.dest_redo.lsn ∨ env.ptrack_lsn = 0)))
    (hst : ¬ (env.pre.backup_mode ≠ .FULL ∧ env.pre.dest_redo.lsn > env.start_lsn))
    (hdirs : (catchup_create_dirs env.pre.tablespace_mapping env.symlink_target
        (isort fileKeyLe env.source_filelist)).2 = Except.ok ())
    (hctrl : remove_control_file (isort fileKeyLe env.source_filelist) =
        some (ctrl, rest))
    (hok : pool_all_ok env.copy_ok (isort fileSizeGe rest) = true) :
    ∃ xs ys, (do_catchup env).1 = xs ++ CatchupAction.stopBackupSend :: ys ∧
      (CatchupAction.createRestorePoint ∈ xs ↔
        (env.pre.from_replica = false ∧
          ¬ (env.server_version < 90600 ∧ env.is_superuser = false))) ∧
      CatchupAction.createRestorePoint ∉ ys := by
  have hcf := do_catchup_reached env ctrl rest hpre hpt hst hdirs hctrl
  rw [end_of_backup_trace env] at hcf
  have hdirsmem := create_dirs_actions env.pre.tablespace_mapping
    env.symlink_target (isort fileKeyLe env.source_filelist)
  refine ⟨CatchupAction.startBackup :: CatchupAction.mkdirWalDir ::
    CatchupAction.startWalStreaming ::
    ((catchup_create_dirs env.pre.tablespace_mapping env.symlink_target
        (isort fileKeyLe env.source_filelist)).1 ++
      ((if env.pre.backup_mode ≠ .FULL then
          (catchup_reaper rest env.dest_filelist).1 else []) ++
        ((isort fileSizeGe rest).filterMap (fun f =>
          if f.kind = .directory then none
          else some (CatchupAction.copyFile f.rel_path)) ++
          (CatchupAction.copyControlFile ctrl.rel_path ::
            (if env.pre.from_replica = false ∧
                ¬ (env.server_version < 90600 ∧ env.is_superuser = false) then
              [CatchupAction.createRestorePoint] else []))))),
    CatchupAction.stopBackupConsume :: CatchupAction.writeBackupLabel ::
      (if env.wal_stream_ok = false then []
       else
        (if env.pre.from_replica = true ∧ env.pre.exclusive_backup = false then
          [CatchupAction.setMinRecoveryPoint] else []) ++
        (if env.sync_dest_files then [CatchupAction.syncFiles] else [])),
    ?_, ?_, ?_⟩
  · rw [hcf]
    simp [hok, List.append_assoc, List.cons_append]
  · constructor
    · intro hmem
      simp only [List.mem_cons, List.mem_append] at hmem
      rcases hmem with h | h | h | hD | hR | hP | hCC
      · cases h
      · cases h
      · cases h
      · rcases hdirsmem _ hD with ⟨p, hp⟩ | ⟨p, q, hp⟩ <;> cases hp
      · by_cases hfull : env.pre.backup_mode ≠ BackupMode.FULL
        · rw [if_pos hfull] at hR
          rcases reaper_actions rest env.dest_filelist _ hR with ⟨p, hp⟩
          cases hp
        · rw [if_neg hfull] at hR
          cases hR
      · rcases pool_trace_shape rest _ hP with ⟨g, hg, hp⟩
        cases hp
      · rcases hCC with h | hRP
        · cases h
        · by_cases hcond : env.pre.from_replica = false ∧
              ¬ (env.server_version < 90600 ∧ env.is_superuser = false)
          · exact hcond
          · rw [if_neg hcond] at hRP
            cases hRP
    · intro hcond
      simp [hcond, List.mem_cons, List.mem_append]
  · intro ha
    simp only [List.mem_cons, List.mem_append] at ha
    split_ifs at ha <;> simp at ha

theorem catchup_c8_amended_witness :
    pool_all_ok cFullEnv.copy_ok (isort fileSizeGe cFullRest) = true ∧
    (∃ xs ys, (do_catchup cFullEnv).1 = xs ++ CatchupAction.stopBackupSend :: ys ∧
      (CatchupAction.createRestorePoint ∈ xs ↔
        (cFullEnv.pre.from_replica = false ∧
          ¬ (cFullEnv.server_version < 90600 ∧ cFullEnv.is_superuser = false))) ∧
      CatchupAction.createRestorePoint ∉ ys) :=
  ⟨by decide,
    catchup_c8_amended cFullEnv fControl cFullRest rfl (by decide) (by decide)
      rfl (by decide) (by decide)⟩
